import Mathlib

/-!
Verification of the technical-analysis-pro signal pipeline.

Shallow embedding of the pure computational core of
`technical_analysis.py` and `html_report.py`:

* float scalars that may be NaN (an indicator whose lookback exceeds the
  series length) are modelled as `Option ℚ`, with `none` playing NaN;
  Python comparison operators on floats return `False` whenever an
  operand is NaN, which `pyGt`/`pyLt` reproduce;
* Python `dict.get` with a possibly-missing key is modelled by an outer
  `Option` (the key's presence) around the stored value;
* fallible library calls (`sklearn` raising on an empty design matrix,
  pandas reductions of empty series) return `Option`.
-/

/-- Python float `a > b`: `False` when either operand is NaN (`none`). -/
def pyGt : Option ℚ → Option ℚ → Bool
  | some a, some b => a > b
  | _, _ => false

/-- Python float `a < b`: `False` when either operand is NaN (`none`). -/
def pyLt : Option ℚ → Option ℚ → Bool
  | some a, some b => a < b
  | _, _ => false

/-- `results['golden_cross'] = df['SMA_50'].iloc[-1] > df['SMA_200'].iloc[-1]`
from `calculate_trend_indicators`. -/
def golden_cross (sma50 sma200 : Option ℚ) : Bool := pyGt sma50 sma200

/-- `results['price_above_sma200'] = df['Close'].iloc[-1] > df['SMA_200'].iloc[-1]`
from `calculate_trend_indicators`. -/
def price_above_sma200 (close sma200 : Option ℚ) : Bool := pyGt close sma200

/-- `results['macd_bullish'] = df['MACD'].iloc[-1] > df['MACD_Signal'].iloc[-1]`
from `calculate_trend_indicators`. -/
def macd_bullish (macd macdSig : Option ℚ) : Bool := pyGt macd macdSig

/-- `'Overbought' if rsi > 70 else 'Oversold' if rsi < 30 else 'Neutral'`
from `calculate_momentum_indicators`; a NaN RSI lands in `'Neutral'`. -/
def rsi_signal (rsi : Option ℚ) : String :=
  if pyGt rsi (some 70) then "Overbought"
  else if pyLt rsi (some 30) then "Oversold"
  else "Neutral"

/-- `'Accumulation' if df['CMF'].iloc[-1] > 0 else 'Distribution'` from
`calculate_volume_indicators`; note a NaN CMF lands in the `else` branch. -/
def volume_trend (cmf : Option ℚ) : String :=
  if pyGt cmf (some 0) then "Accumulation" else "Distribution"

/-- The fields `generate_trading_signals` reads through `dict.get`; `none`
models a missing key (its category dict was `{}`). -/
structure SignalInputs where
  golden_cross : Option Bool
  price_above_sma200 : Option Bool
  macd_bullish : Option Bool
  rsi_signal : Option String
  volume_trend : Option String
deriving DecidableEq

/-- Python truthiness of `dict.get(key)`: `None` (missing key) is falsy. -/
def truthy : Option Bool → Bool
  | some b => b
  | none => false

/-- The `signals` dict built by `generate_trading_signals`. -/
structure TradingSignals where
  overall_signal : Option String
  confidence : ℚ
  bullish_signals : List String
  bearish_signals : List String
deriving DecidableEq

/-- The `bullish_signals` list appended by the rule table of
`generate_trading_signals`, in source order. -/
def bullish_rules (inp : SignalInputs) : List String :=
  (if truthy inp.golden_cross then ["Golden Cross (SMA50 > SMA200)"] else []) ++
  (if truthy inp.price_above_sma200 then ["Price above SMA200"] else []) ++
  (if truthy inp.macd_bullish then ["MACD Bullish Crossover"] else []) ++
  (if inp.rsi_signal = some "Oversold" then ["RSI Oversold (potential reversal)"] else []) ++
  (if inp.volume_trend = some "Accumulation" then ["Volume showing accumulation"] else [])

/-- The `bearish_signals` list appended by the rule table of
`generate_trading_signals`, in source order. -/
def bearish_rules (inp : SignalInputs) : List String :=
  (if inp.rsi_signal = some "Overbought" then ["RSI Overbought (potential reversal)"] else []) ++
  (if inp.volume_trend = some "Distribution" then ["Volume showing distribution"] else [])

/-- The tail of `generate_trading_signals`: counts the two lists and fills
`overall_signal` / `confidence`. -/
def aggregate (bullish bearish : List String) : TradingSignals :=
  let b := bullish.length
  let r := bearish.length
  if 0 < b + r then
    if r < b then ⟨some "BUY", (b : ℚ) / ((b : ℚ) + (r : ℚ)) * 100, bullish, bearish⟩
    else if b < r then ⟨some "SELL", (r : ℚ) / ((b : ℚ) + (r : ℚ)) * 100, bullish, bearish⟩
    else ⟨some "HOLD", 50, bullish, bearish⟩
  else ⟨none, 0, bullish, bearish⟩

/-- `generate_trading_signals` from `technical_analysis.py`: rule table then
aggregation. -/
def generate_trading_signals (inp : SignalInputs) : TradingSignals :=
  aggregate (bullish_rules inp) (bearish_rules inp)

/-- OLS slope of `LinearRegression().fit(X, y)` in `predict_price_movement`,
where `X = [[0], [1], ..., [n-1]]` and `y` the closes.  For `n ≥ 2` this is
the textbook `(n·Σxy − Σx·Σy)/(n·Σx² − (Σx)²)`; when the centred design is
singular (`n ≤ 1`) scikit-learn's `lstsq` call returns the minimum-norm
solution, whose slope component is `0`. -/
def olsSlope (ys : List ℚ) : ℚ :=
  let n : ℚ := ys.length
  let xs : List ℚ := (List.range ys.length).map (fun i => (i : ℚ))
  let den := n * (xs.map (fun x => x * x)).sum - xs.sum * xs.sum
  if den = 0 then 0
  else (n * (List.zipWith (fun x y => x * y) xs ys).sum - xs.sum * ys.sum) / den

/-- OLS intercept of the same fit: `mean y − slope · mean x`
(scikit-learn's `intercept_` after centring). -/
def olsIntercept (ys : List ℚ) : ℚ :=
  ys.sum / (ys.length : ℚ) -
    olsSlope ys * (((List.range ys.length).map (fun i => (i : ℚ))).sum / (ys.length : ℚ))

/-- The `results['linear_regression']` record of `predict_price_movement`. -/
structure LinRegResult where
  next_5_days : List ℚ
  trend : String
  slope : ℚ
deriving DecidableEq

/-- The linear-regression step of `predict_price_movement`: predictions at
day indices `len(df) .. len(df)+4`, the trend label
`'Bullish' if model.coef_[0] > 0 else 'Bearish'`, and the slope.  `none`
models scikit-learn's `ValueError` on an empty design matrix (`fit` with
0 samples raises); with 1 sample it fits fine (slope 0, see `olsSlope`). -/
def predict_price_movement (ys : List ℚ) : Option LinRegResult :=
  if ys.length = 0 then none
  else some
    { next_5_days :=
        (List.range 5).map (fun k => olsIntercept ys + olsSlope ys * ((ys.length : ℚ) + (k : ℚ)))
      trend := if olsSlope ys > 0 then "Bullish" else "Bearish"
      slope := olsSlope ys }

/-- `returns = df['Close'].pct_change().dropna()` from
`calculate_risk_metrics`: per-bar simple returns, first bar dropped.
Faithful to the float computation when every close is nonzero. -/
def pct_change_dropna (closes : List ℚ) : List ℚ :=
  List.zipWith (fun prev cur => cur / prev - 1) closes closes.tail

/-- Arithmetic mean, `Series.mean()`. -/
def listMean (rs : List ℚ) : ℚ := rs.sum / (rs.length : ℚ)

/-- Square of the pandas sample standard deviation `Series.std()`
(`ddof = 1`): `Σ (r − mean)² / (n − 1)`.  Only meaningful for `n ≥ 2`;
pandas yields NaN below that, which `sharpe_ratio` handles separately. -/
def sampleVariance (rs : List ℚ) : ℚ :=
  (rs.map (fun r => (r - listMean rs) ^ 2)).sum / ((rs.length : ℚ) - 1)

/-- Value of the `sharpe_ratio` field.  `val q` is an exactly representable
result (the `else 0` arm); `annualized m v` stands for `m/√v · √252`
(irrational in general, so the branch data `mean`/`variance` is recorded
instead of the value); `nan` is the float NaN produced when fewer than two
returns exist — pandas `std` is NaN, `NaN != 0` is `True` in Python, and
`mean/NaN·√252` is NaN. -/
inductive SharpeValue where
  | val : ℚ → SharpeValue
  | annualized : ℚ → ℚ → SharpeValue
  | nan : SharpeValue
deriving DecidableEq

/-- `sharpe_ratio = (returns.mean() / returns.std()) * np.sqrt(252) if
returns.std() != 0 else 0` from `calculate_risk_metrics`.  `std == 0`
exactly when the sample variance is `0` (and `n ≥ 2`). -/
def sharpe_ratio (returns : List ℚ) : SharpeValue :=
  if returns.length < 2 then SharpeValue.nan
  else if sampleVariance returns = 0 then SharpeValue.val 0
  else SharpeValue.annualized (listMean returns) (sampleVariance returns)

/-- Drawdown series `close[t] / cummax(close)[0..t] − 1`, with `m` the
running maximum of the closes already consumed. -/
def ddAux (m : ℚ) : List ℚ → List ℚ
  | [] => []
  | c :: cs => (c / max m c - 1) :: ddAux (max m c) cs

/-- `(df['Close'] / df['Close'].cummax()) - 1` as a series. -/
def ddList : List ℚ → List ℚ
  | [] => []
  | c :: cs => ddAux c (c :: cs)

/-- `max_drawdown = ((df['Close'] / df['Close'].cummax()) - 1).min() * 100`
from `calculate_risk_metrics`; `none` models the NaN that pandas `.min()`
gives on an empty series. -/
def max_drawdown (closes : List ℚ) : Option ℚ :=
  match ddList closes with
  | [] => none
  | d :: ds => some (ds.foldl min d * 100)

/-- The pivot-level record of `calculate_support_resistance`. -/
structure PivotLevels where
  pivot : ℚ
  resistance_1 : ℚ
  resistance_2 : ℚ
  support_1 : ℚ
  support_2 : ℚ
deriving DecidableEq

/-- `calculate_support_resistance` from `technical_analysis.py`, applied to
the latest bar's high/low/close. -/
def calculate_support_resistance (high low close : ℚ) : PivotLevels :=
  let pivot := (high + low + close) / 3
  { pivot := pivot
    resistance_1 := 2 * pivot - low
    resistance_2 := pivot + (high - low)
    support_1 := 2 * pivot - high
    support_2 := pivot - (high - low) }

/-- The `levels` dict of `calculate_fibonacci_levels`, one field per ratio
label. -/
structure FibLevels where
  l000 : ℚ
  l236 : ℚ
  l382 : ℚ
  l500 : ℚ
  l618 : ℚ
  l786 : ℚ
  l100 : ℚ
deriving DecidableEq

/-- The level table of `calculate_fibonacci_levels` given the whole-series
extrema: `{0.0: high, r: high − r·(high − low), 1.0: low}`. -/
def fibTable (high low : ℚ) : FibLevels :=
  let diff := high - low
  { l000 := high
    l236 := high - 0.236 * diff
    l382 := high - 0.382 * diff
    l500 := high - 0.500 * diff
    l618 := high - 0.618 * diff
    l786 := high - 0.786 * diff
    l100 := low }

/-- Minimum of a pandas series, `none` on an empty one. -/
def listMin : List ℚ → Option ℚ
  | [] => none
  | c :: cs => some (cs.foldl min c)

/-- Maximum of a pandas series, `none` on an empty one. -/
def listMax : List ℚ → Option ℚ
  | [] => none
  | c :: cs => some (cs.foldl max c)

/-- `calculate_fibonacci_levels` from `technical_analysis.py`:
`high = df['High'].max()`, `low = df['Low'].min()`, then the level table. -/
def calculate_fibonacci_levels (highs lows : List ℚ) : Option FibLevels :=
  match listMax highs, listMin lows with
  | some h, some l => some (fibTable h l)
  | _, _ => none

/-- Python `str.upper()` on the ASCII signal values this program passes
around: uppercase each character. -/
def pyUpper (s : String) : String := String.mk (s.data.map Char.toUpper)

/-- The `signal_upper` binding of `get_signal_badge_class` in
`html_report.py`: `signal.upper() if signal else ""`, where Python `None`
and the empty string are falsy. -/
def signal_upper (signal : Option String) : String :=
  match signal with
  | none => ""
  | some s => if s = "" then "" else pyUpper s

/-- `get_signal_badge_class` from `html_report.py`. -/
def get_signal_badge_class (signal : Option String) : String :=
  if signal_upper signal = "BUY" then "badge-buy"
  else if signal_upper signal = "SELL" then "badge-sell"
  else "badge-hold"

/-- `trading_signals.get('overall_signal', 'HOLD')` in
`generate_html_report`: the outer `Option` is the key's presence.  Python
`dict.get` returns the stored value — even when that value is `None` — and
the default only when the key is absent. -/
def overall_signal_get (stored : Option (Option String)) : Option String :=
  match stored with
  | none => some "HOLD"
  | some v => v

/-- The text interpolated into the signal box of the HTML report:
`f"{trading_signals.get('overall_signal', 'HOLD')}"`.  Python's `str(None)`
is the four-character string `"None"`. -/
def render_signal_text (stored : Option (Option String)) : String :=
  match overall_signal_get stored with
  | none => "None"
  | some s => s

/-- The badge class attached to the signal box of the HTML report:
`get_signal_badge_class(trading_signals.get('overall_signal', 'HOLD'))`. -/
def render_signal_badge (stored : Option (Option String)) : String :=
  get_signal_badge_class (overall_signal_get stored)

/-- The spec's Signal Aggregator worked example: all three trend rules fire,
RSI neutral, volume accumulating. -/
def specExampleInputs : SignalInputs :=
  ⟨some true, some true, some true, some "Neutral", some "Accumulation"⟩

/-- All category dicts empty (no indicator stage ran): every `dict.get`
returns `None`. -/
def emptyInputs : SignalInputs := ⟨none, none, none, none, none⟩

/-- `aggregate` passes the bullish list through unchanged. -/
theorem aggregate_bullish (bl br : List String) :
    (aggregate bl br).bullish_signals = bl := by
  unfold aggregate
  dsimp only
  split_ifs <;> rfl

/-- `aggregate` passes the bearish list through unchanged. -/
theorem aggregate_bearish (bl br : List String) :
    (aggregate bl br).bearish_signals = br := by
  unfold aggregate
  dsimp only
  split_ifs <;> rfl

/-- Vote rule of `aggregate`, the tail of `generate_trading_signals`. -/
theorem aggregate_vote (bl br : List String) (h : 0 < bl.length + br.length) :
    (br.length < bl.length →
      (aggregate bl br).overall_signal = some "BUY" ∧
      (aggregate bl br).confidence =
        (bl.length : ℚ) / ((bl.length : ℚ) + (br.length : ℚ)) * 100) ∧
    (bl.length < br.length →
      (aggregate bl br).overall_signal = some "SELL" ∧
      (aggregate bl br).confidence =
        (br.length : ℚ) / ((bl.length : ℚ) + (br.length : ℚ)) * 100) ∧
    (bl.length = br.length →
      (aggregate bl br).overall_signal = some "HOLD" ∧
      (aggregate bl br).confidence = 50) := by
  unfold aggregate
  dsimp only
  rw [if_pos h]
  refine ⟨fun hc => ?_, fun hc => ?_, fun hc => ?_⟩
  · rw [if_pos hc]
    exact ⟨rfl, rfl⟩
  · rw [if_neg (Nat.lt_asymm hc), if_pos hc]
    exact ⟨rfl, rfl⟩
  · rw [if_neg (hc ▸ lt_irrefl _), if_neg (hc ▸ lt_irrefl _)]
    exact ⟨rfl, rfl⟩

/-- C1 counterexample: an undefined (NaN) CMF lands in the `else
'Distribution'` branch of `calculate_volume_indicators`, and
`generate_trading_signals` then emits the bearish Distribution signal —
the claim says it emits neither signal. -/
theorem nan_cmf_counterexample :
    volume_trend none = "Distribution" ∧
    (generate_trading_signals
        ⟨some false, some false, some false, some "Neutral",
         some (volume_trend none)⟩).bearish_signals =
      ["Volume showing distribution"] := by
  decide

/-- C1 (amended): an indicator scalar that is NaN contributes no entry
through the trend rules (`golden_cross`, `price_above_sma200`,
`macd_bullish` are `False` when an operand is NaN) or the RSI rule (a NaN
RSI maps to `'Neutral'`); the `volume_trend` rule however maps an undefined
CMF to `'Distribution'`, so a NaN CMF does contribute the bearish
Distribution entry — in an all-NaN run the bullish list is empty and the
bearish list holds exactly that one entry. -/
theorem nan_scalar_vote_contribution :
    (∀ a : Option ℚ, golden_cross none a = false ∧ golden_cross a none = false) ∧
    (∀ a : Option ℚ,
      price_above_sma200 none a = false ∧ price_above_sma200 a none = false) ∧
    (∀ a : Option ℚ, macd_bullish none a = false ∧ macd_bullish a none = false) ∧
    rsi_signal none = "Neutral" ∧
    volume_trend none = "Distribution" ∧
    (generate_trading_signals
        ⟨some (golden_cross none none), some (price_above_sma200 none none),
         some (macd_bullish none none), some (rsi_signal none),
         some (volume_trend none)⟩).bullish_signals = [] ∧
    (generate_trading_signals
        ⟨some (golden_cross none none), some (price_above_sma200 none none),
         some (macd_bullish none none), some (rsi_signal none),
         some (volume_trend none)⟩).bearish_signals =
      ["Volume showing distribution"] := by
  refine ⟨fun a => ⟨by cases a <;> rfl, by cases a <;> rfl⟩,
    fun a => ⟨by cases a <;> rfl, by cases a <;> rfl⟩,
    fun a => ⟨by cases a <;> rfl, by cases a <;> rfl⟩, ?_, ?_, ?_, ?_⟩ <;> decide

/-- C2: with at least one vote cast, `generate_trading_signals` returns BUY
when bullish votes strictly exceed bearish ones (confidence
`bullish/total·100`), SELL in the symmetric case, and HOLD with
confidence exactly 50 on a tie. -/
theorem generate_trading_signals_vote (inp : SignalInputs)
    (h : 0 < (generate_trading_signals inp).bullish_signals.length +
          (generate_trading_signals inp).bearish_signals.length) :
    ((generate_trading_signals inp).bearish_signals.length <
        (generate_trading_signals inp).bullish_signals.length →
      (generate_trading_signals inp).overall_signal = some "BUY" ∧
      (generate_trading_signals inp).confidence =
        ((generate_trading_signals inp).bullish_signals.length : ℚ) /
          (((generate_trading_signals inp).bullish_signals.length : ℚ) +
            ((generate_trading_signals inp).bearish_signals.length : ℚ)) * 100) ∧
    ((generate_trading_signals inp).bullish_signals.length <
        (generate_trading_signals inp).bearish_signals.length →
      (generate_trading_signals inp).overall_signal = some "SELL" ∧
      (generate_trading_signals inp).confidence =
        ((generate_trading_signals inp).bearish_signals.length : ℚ) /
          (((generate_trading_signals inp).bullish_signals.length : ℚ) +
            ((generate_trading_signals inp).bearish_signals.length : ℚ)) * 100) ∧
    ((generate_trading_signals inp).bullish_signals.length =
        (generate_trading_signals inp).bearish_signals.length →
      (generate_trading_signals inp).overall_signal = some "HOLD" ∧
      (generate_trading_signals inp).confidence = 50) := by
  simp only [generate_trading_signals, aggregate_bullish, aggregate_bearish] at h ⊢
  exact aggregate_vote (bullish_rules inp) (bearish_rules inp) h

/-- Witness for C2 at the spec's worked example: 4 bullish votes, 0 bearish
votes, so BUY with confidence 100. -/
theorem generate_trading_signals_vote_witness :
    (generate_trading_signals specExampleInputs).overall_signal = some "BUY" ∧
    (generate_trading_signals specExampleInputs).confidence = 100 := by
  have h := (generate_trading_signals_vote specExampleInputs (by decide)).1 (by decide)
  refine ⟨h.1, ?_⟩
  have hb : (generate_trading_signals specExampleInputs).bullish_signals.length = 4 := by
    decide
  have hr : (generate_trading_signals specExampleInputs).bearish_signals.length = 0 := by
    decide
  rw [h.2, hb, hr]
  norm_num

/-- C4 counterexample: the constant series `[1, 1]` has OLS slope exactly
`0`, which is non-negative, yet `predict_price_movement` labels it
`'Bearish'` — the source test is the strict `model.coef_[0] > 0`, so the
claim's "zero ⇒ Bullish" boundary is wrong. -/
theorem lr_trend_zero_slope_counterexample :
    olsSlope [1, 1] = 0 ∧
    (predict_price_movement [1, 1]).map LinRegResult.trend = some "Bearish" := by
  have hs : olsSlope [1, 1] = 0 := by
    simp [olsSlope, List.range_succ]
    norm_num
  refine ⟨hs, ?_⟩
  simp [predict_price_movement, hs]

/-- C4 (amended): the forecast direction label is `'Bullish'` exactly when
the fitted OLS slope is strictly positive, and `'Bearish'` exactly when the
slope is zero or negative. -/
theorem lr_trend_label (ys : List ℚ) (R : LinRegResult)
    (hR : predict_price_movement ys = some R) :
    (R.trend = "Bullish" ↔ 0 < R.slope) ∧ (R.trend = "Bearish" ↔ R.slope ≤ 0) := by
  unfold predict_price_movement at hR
  split at hR
  · exact absurd hR (by simp)
  · obtain rfl := Option.some.inj hR
    dsimp only
    split_ifs with h
    · constructor
      · simp [h]
      · constructor
        · intro hcontra
          exact absurd hcontra (by decide)
        · intro hle
          exact absurd h (not_lt.mpr hle)
    · constructor
      · constructor
        · intro hcontra
          exact absurd hcontra (by decide)
        · intro hlt
          exact absurd hlt h
      · simp [not_lt.mp h]

/-- Witness for C4 (amended) on the strictly rising series `[1, 2]`
(slope 1, label Bullish). -/
theorem lr_trend_label_witness :
    ∃ R : LinRegResult, predict_price_movement [1, 2] = some R ∧
      (R.trend = "Bullish" ↔ 0 < R.slope) ∧ (R.trend = "Bearish" ↔ R.slope ≤ 0) := by
  have hpred : predict_price_movement [1, 2] =
      some { next_5_days := [3, 4, 5, 6, 7], trend := "Bullish", slope := 1 } := by
    norm_num [predict_price_movement, olsSlope, olsIntercept, List.range_succ]
  exact ⟨_, hpred, lr_trend_label [1, 2] _ hpred⟩

/-- C5 counterexample: a series with exactly one bar does not make the
regression step fail, but neither is the result "unavailable"/NaN-filled —
scikit-learn fits one sample fine and the forecast is fully numeric: all
five predictions equal the single close, slope 0. -/
theorem one_bar_regression_counterexample :
    predict_price_movement [5] =
      some { next_5_days := [5, 5, 5, 5, 5], trend := "Bearish", slope := 0 } ∧
    predict_price_movement [5] ≠ none := by
  have h : predict_price_movement [5] =
      some { next_5_days := [5, 5, 5, 5, 5], trend := "Bearish", slope := 0 } := by
    norm_num [predict_price_movement, olsSlope, olsIntercept, List.range_succ]
  exact ⟨h, by simp [h]⟩

/-- C5 (amended): the regression step of `predict_price_movement` does not
throw on a 1-bar series and returns a numeric (not NaN-filled) forecast —
five predictions all equal to the single close, slope 0, label `'Bearish'`;
only an empty series makes the underlying fit raise. -/
theorem one_bar_regression (c : ℚ) :
    predict_price_movement [c] =
      some { next_5_days := [c, c, c, c, c], trend := "Bearish", slope := 0 } ∧
    predict_price_movement ([] : List ℚ) = none := by
  have hs : olsSlope [c] = 0 := by
    simp [olsSlope, List.range_succ]
  have hi : olsIntercept [c] = c := by
    simp [olsIntercept, hs, List.range_succ]
  constructor
  · norm_num [predict_price_movement, hs, hi, List.range_succ]
  · rfl

/-- C3: when no rule fired (both vote counts are 0),
`generate_trading_signals` leaves `overall_signal` as `None` and
`confidence` as 0, with both signal lists empty. -/
theorem generate_trading_signals_no_vote (inp : SignalInputs)
    (hb : (generate_trading_signals inp).bullish_signals.length = 0)
    (hr : (generate_trading_signals inp).bearish_signals.length = 0) :
    (generate_trading_signals inp).overall_signal = none ∧
    (generate_trading_signals inp).confidence = 0 ∧
    (generate_trading_signals inp).bullish_signals = [] ∧
    (generate_trading_signals inp).bearish_signals = [] := by
  simp only [generate_trading_signals, aggregate_bullish, aggregate_bearish] at hb hr ⊢
  have h0 : ¬ 0 < (bullish_rules inp).length + (bearish_rules inp).length := by omega
  unfold aggregate
  dsimp only
  rw [if_neg h0]
  exact ⟨rfl, rfl, List.length_eq_zero.mp hb, List.length_eq_zero.mp hr⟩

/-- Witness for C3: with every category dict empty no rule fires, and the
result is the untouched initial `signals` dict. -/
theorem generate_trading_signals_no_vote_witness :
    (generate_trading_signals emptyInputs).overall_signal = none ∧
    (generate_trading_signals emptyInputs).confidence = 0 ∧
    (generate_trading_signals emptyInputs).bullish_signals = [] ∧
    (generate_trading_signals emptyInputs).bearish_signals = [] :=
  generate_trading_signals_no_vote emptyInputs (by decide) (by decide)

/-- Sum of a list all of whose elements equal `a`. -/
theorem list_sum_const (l : List ℚ) (a : ℚ) (h : ∀ x ∈ l, x = a) :
    l.sum = (l.length : ℚ) * a := by
  induction l with
  | nil => simp
  | cons b tl ih =>
    rw [List.sum_cons, ih (fun x hx => h x (List.mem_cons_of_mem _ hx)),
      h b (List.mem_cons_self _ _), List.length_cons]
    push_cast
    ring

/-- C6: if all per-bar returns of a (nonzero-priced) close series are
identical — equivalently, the pandas sample standard deviation of the
return series is exactly 0, which requires at least two returns — then
`sharpe_ratio` takes the guarded `else 0` branch: the result is exactly 0
and the division by the standard deviation is never executed. -/
theorem sharpe_ratio_zero_std (closes : List ℚ)
    (_hnz : ∀ c ∈ closes, c ≠ 0)
    (h2 : 2 ≤ (pct_change_dropna closes).length)
    (hsame : ∀ x ∈ pct_change_dropna closes, ∀ y ∈ pct_change_dropna closes, x = y) :
    sampleVariance (pct_change_dropna closes) = 0 ∧
    sharpe_ratio (pct_change_dropna closes) = SharpeValue.val 0 := by
  set rs := pct_change_dropna closes with hrs
  have hne : rs ≠ [] := by
    intro hnil
    rw [hnil] at h2
    simp at h2
  obtain ⟨a, tl, hcons⟩ := List.exists_cons_of_ne_nil hne
  have hall : ∀ x ∈ rs, x = a := by
    intro x hx
    exact hsame x hx a (by rw [hcons]; exact List.mem_cons_self _ _)
  have hlen : (rs.length : ℚ) ≠ 0 := by
    have : rs.length ≠ 0 := by omega
    exact_mod_cast this
  have hmean : listMean rs = a := by
    unfold listMean
    rw [list_sum_const rs a hall, mul_comm, mul_div_assoc, div_self hlen, mul_one]
  have hvar : sampleVariance rs = 0 := by
    unfold sampleVariance
    have hz : ∀ x ∈ rs.map (fun r => (r - listMean rs) ^ 2), x = 0 := by
      intro x hx
      obtain ⟨r, hr, rfl⟩ := List.mem_map.mp hx
      rw [hmean, hall r hr, sub_self]
      ring
    rw [List.sum_eq_zero hz, zero_div]
  refine ⟨hvar, ?_⟩
  unfold sharpe_ratio
  rw [if_neg (by omega), if_pos hvar]

/-- Witness for C6 on the flat series `[1, 1, 1]`: both returns are 0, the
variance is 0, and the Sharpe ratio is exactly 0. -/
theorem sharpe_ratio_zero_std_witness :
    sampleVariance (pct_change_dropna [1, 1, 1]) = 0 ∧
    sharpe_ratio (pct_change_dropna [1, 1, 1]) = SharpeValue.val 0 := by
  have hrs : pct_change_dropna [1, 1, 1] = [0, 0] := by
    simp [pct_change_dropna]
  exact sharpe_ratio_zero_std [1, 1, 1] (by simp) (by rw [hrs]; simp)
    (by rw [hrs]; simp)

/-- A left fold by `min` never exceeds its initial value. -/
theorem foldl_min_le_init : ∀ (l : List ℚ) (a : ℚ), l.foldl min a ≤ a := by
  intro l
  induction l with
  | nil => intro a; simp
  | cons b tl ih =>
    intro a
    calc (b :: tl).foldl min a = tl.foldl min (min a b) := rfl
      _ ≤ min a b := ih _
      _ ≤ a := min_le_left _ _

/-- A left fold by `min` never exceeds any list element. -/
theorem foldl_min_le_mem : ∀ (l : List ℚ) (a x : ℚ), x ∈ l → l.foldl min a ≤ x := by
  intro l
  induction l with
  | nil => intro a x hx; simp at hx
  | cons b tl ih =>
    intro a x hx
    rcases List.mem_cons.mp hx with rfl | hx
    · calc (x :: tl).foldl min a = tl.foldl min (min a x) := rfl
        _ ≤ min a x := foldl_min_le_init _ _
        _ ≤ x := min_le_right _ _
    · exact ih (min a b) x hx

/-- A lower bound of the initial value and of every element bounds the
fold. -/
theorem le_foldl_min : ∀ (l : List ℚ) (a q : ℚ), q ≤ a → (∀ x ∈ l, q ≤ x) →
    q ≤ l.foldl min a := by
  intro l
  induction l with
  | nil => intro a q hqa _; simpa using hqa
  | cons b tl ih =>
    intro a q hqa h
    have hb : q ≤ min a b := le_min hqa (h b (List.mem_cons_self _ _))
    exact ih _ _ hb (fun x hx => h x (List.mem_cons_of_mem _ hx))

/-- Every entry of the drawdown series is nonpositive (positive prices). -/
theorem ddAux_nonpos : ∀ (cs : List ℚ) (m : ℚ), 0 < m → (∀ c ∈ cs, 0 < c) →
    ∀ x ∈ ddAux m cs, x ≤ 0 := by
  intro cs
  induction cs with
  | nil => intro m _ _ x hx; simp [ddAux] at hx
  | cons c tl ih =>
    intro m hm hcs x hx
    have hc : 0 < c := hcs c (List.mem_cons_self _ _)
    have hmax : 0 < max m c := lt_max_of_lt_right hc
    rw [ddAux] at hx
    rcases List.mem_cons.mp hx with rfl | hx
    · have hle : c / max m c ≤ 1 := (div_le_one hmax).mpr (le_max_right m c)
      linarith
    · exact ih (max m c) hmax (fun y hy => hcs y (List.mem_cons_of_mem _ hy)) x hx

/-- The drawdown series (of positive prices) has all entries nonnegative —
hence all zero — exactly when the prices never fall below the running
maximum `m`, i.e. when `m :: cs` is non-decreasing. -/
theorem ddAux_nonneg_iff : ∀ (cs : List ℚ) (m : ℚ), 0 < m → (∀ c ∈ cs, 0 < c) →
    ((∀ x ∈ ddAux m cs, 0 ≤ x) ↔ List.Chain (· ≤ ·) m cs) := by
  intro cs
  induction cs with
  | nil => intro m _ _; simp [ddAux]
  | cons c tl ih =>
    intro m hm hcs
    have hc : 0 < c := hcs c (List.mem_cons_self _ _)
    have htl : ∀ y ∈ tl, 0 < y := fun y hy => hcs y (List.mem_cons_of_mem _ hy)
    rw [List.chain_cons, ddAux]
    by_cases hmc : m ≤ c
    · rw [max_eq_right hmc]
      have hdiv : c / c - 1 = 0 := by
        rw [div_self (ne_of_gt hc)]
        ring
      rw [hdiv]
      constructor
      · intro h
        exact ⟨hmc, (ih c hc htl).mp (fun x hx => h x (List.mem_cons_of_mem _ hx))⟩
      · rintro ⟨-, hch⟩ x hx
        rcases List.mem_cons.mp hx with rfl | hx
        · exact le_refl 0
        · exact (ih c hc htl).mpr hch x hx
    · have hcm : c < m := lt_of_not_le hmc
      rw [max_eq_left (le_of_lt hcm)]
      have hneg : c / m - 1 < 0 := by
        have : c / m < 1 := (div_lt_one hm).mpr hcm
        linarith
      constructor
      · intro h
        exact absurd (h _ (List.mem_cons_self _ _)) (not_le.mpr hneg)
      · rintro ⟨hc', -⟩
        exact absurd hc' hmc

/-- C7: for a non-empty series of positive closes, `max_drawdown` is
defined, is at most 0, and is exactly 0 precisely when the close series is
monotonically non-decreasing. -/
theorem max_drawdown_spec (closes : List ℚ) (hpos : ∀ c ∈ closes, 0 < c)
    (hne : closes ≠ []) :
    ∃ v, max_drawdown closes = some v ∧ v ≤ 0 ∧
      (v = 0 ↔ List.Chain' (· ≤ ·) closes) := by
  obtain ⟨c, cs, rfl⟩ := List.exists_cons_of_ne_nil hne
  have hc : 0 < c := hpos c (List.mem_cons_self _ _)
  have hcs : ∀ x ∈ cs, 0 < x := fun x hx => hpos x (List.mem_cons_of_mem _ hx)
  have hdd : ddList (c :: cs) = 0 :: ddAux c cs := by
    rw [ddList, ddAux, max_self, div_self (ne_of_gt hc), sub_self]
  have hw : (ddAux c cs).foldl min 0 ≤ 0 := foldl_min_le_init _ _
  refine ⟨(ddAux c cs).foldl min 0 * 100, ?_, ?_, ?_⟩
  · rw [max_drawdown, hdd]
  · nlinarith [hw]
  · have hchain : List.Chain' (· ≤ ·) (c :: cs) ↔ List.Chain (· ≤ ·) c cs :=
      Iff.rfl
    rw [hchain, ← ddAux_nonneg_iff cs c hc hcs]
    constructor
    · intro hv
      have hw0 : (ddAux c cs).foldl min 0 = 0 := by
        rcases mul_eq_zero.mp hv with h | h
        · exact h
        · norm_num at h
      intro x hx
      exact hw0 ▸ foldl_min_le_mem _ _ _ hx
    · intro hall
      have h0 : 0 ≤ (ddAux c cs).foldl min 0 := le_foldl_min _ _ _ le_rfl hall
      rw [le_antisymm hw h0, zero_mul]

/-- Witness for C7 on the series `[2, 1, 3]` (a 50% drawdown). -/
theorem max_drawdown_spec_witness :
    ∃ v, max_drawdown [2, 1, 3] = some v ∧ v ≤ 0 ∧
      (v = 0 ↔ List.Chain' (· ≤ ·) ([2, 1, 3] : List ℚ)) :=
  max_drawdown_spec [2, 1, 3] (by decide) (by decide)

/-- C8: for a valid latest bar (`low ≤ close ≤ high`) with a strictly
positive range (`low < high`), the pivot levels are strictly ordered
`support_2 < support_1 < pivot < resistance_1 < resistance_2`. -/
theorem pivot_ordering (high low close : ℚ) (hl : low < high)
    (hcl : low ≤ close) (hch : close ≤ high) :
    (calculate_support_resistance high low close).support_2 <
      (calculate_support_resistance high low close).support_1 ∧
    (calculate_support_resistance high low close).support_1 <
      (calculate_support_resistance high low close).pivot ∧
    (calculate_support_resistance high low close).pivot <
      (calculate_support_resistance high low close).resistance_1 ∧
    (calculate_support_resistance high low close).resistance_1 <
      (calculate_support_resistance high low close).resistance_2 := by
  unfold calculate_support_resistance
  dsimp only
  refine ⟨by linarith, by linarith, by linarith, by linarith⟩

/-- Witness for C8 on the bar `high = 10`, `low = 8`, `close = 9`. -/
theorem pivot_ordering_witness :
    (calculate_support_resistance 10 8 9).support_2 <
      (calculate_support_resistance 10 8 9).support_1 ∧
    (calculate_support_resistance 10 8 9).support_1 <
      (calculate_support_resistance 10 8 9).pivot ∧
    (calculate_support_resistance 10 8 9).pivot <
      (calculate_support_resistance 10 8 9).resistance_1 ∧
    (calculate_support_resistance 10 8 9).resistance_1 <
      (calculate_support_resistance 10 8 9).resistance_2 :=
  pivot_ordering 10 8 9 (by decide) (by decide) (by decide)

/-- C9: whenever `calculate_fibonacci_levels` produces a level table and the
series is non-degenerate (its 1.0 level, the series low, is strictly below
its 0.0 level, the series high), the 0.0 level is the whole-series high,
the 1.0 level is the whole-series low, and the seven levels are
monotonically ordered. -/
theorem fibonacci_ordering (highs lows : List ℚ) (F : FibLevels)
    (hF : calculate_fibonacci_levels highs lows = some F)
    (hnd : F.l100 < F.l000) :
    listMax highs = some F.l000 ∧ listMin lows = some F.l100 ∧
    F.l100 ≤ F.l786 ∧ F.l786 ≤ F.l618 ∧ F.l618 ≤ F.l500 ∧
    F.l500 ≤ F.l382 ∧ F.l382 ≤ F.l236 ∧ F.l236 ≤ F.l000 := by
  unfold calculate_fibonacci_levels at hF
  cases hmax : listMax highs with
  | none =>
    rw [hmax] at hF
    exact absurd hF (by simp)
  | some h =>
    cases hmin : listMin lows with
    | none =>
      rw [hmax, hmin] at hF
      exact absurd hF (by simp)
    | some l =>
      rw [hmax, hmin] at hF
      have hFe : some (fibTable h l) = some F := hF
      obtain rfl := Option.some.inj hFe
      unfold fibTable at hnd ⊢
      dsimp only at hnd ⊢
      refine ⟨rfl, rfl, by linarith, by linarith, by linarith, by linarith,
        by linarith, by linarith⟩

/-- Witness for C9 on the series with highs `[10, 12]` and lows `[5, 7]`
(series high 12, series low 5). -/
theorem fibonacci_ordering_witness :
    listMax [10, 12] = some (fibTable 12 5).l000 ∧
    listMin [5, 7] = some (fibTable 12 5).l100 ∧
    (fibTable 12 5).l100 ≤ (fibTable 12 5).l786 ∧
    (fibTable 12 5).l786 ≤ (fibTable 12 5).l618 ∧
    (fibTable 12 5).l618 ≤ (fibTable 12 5).l500 ∧
    (fibTable 12 5).l500 ≤ (fibTable 12 5).l382 ∧
    (fibTable 12 5).l382 ≤ (fibTable 12 5).l236 ∧
    (fibTable 12 5).l236 ≤ (fibTable 12 5).l000 :=
  fibonacci_ordering [10, 12] [5, 7] (fibTable 12 5)
    (by norm_num [calculate_fibonacci_levels, listMax, listMin, max_def, min_def])
    (by simp [fibTable]; norm_num)

/-- C10 counterexample: when the stored `overall_signal` value is Python
`None` (the aggregator's no-vote outcome), the report's signal box renders
the text `"None"`, not `"HOLD"` — `dict.get` only falls back to `'HOLD'`
when the key is absent, and `generate_trading_signals` always stores the
key.  Also, the lowercase value `"buy"` — a value other than `"BUY"` and
`"SELL"` — is mapped to `badge-buy`, not `badge-hold`, because the class is
chosen from the uppercased value. -/
theorem render_none_counterexample :
    render_signal_text (some none) = "None" ∧
    render_signal_text (some none) ≠ "HOLD" ∧
    get_signal_badge_class (some "buy") = "badge-buy" := by
  refine ⟨rfl, by decide, by decide⟩

/-- C10 (amended): when the `overall_signal` key is absent the report
displays `HOLD`; when the key is present holding `None` the report displays
the text `None`, though its badge class is still `badge-hold`; and
`get_signal_badge_class` maps every signal whose uppercased value is
neither `BUY` nor `SELL` — in particular `None` and the empty string — to
`badge-hold`. -/
theorem signal_badge_rendering :
    render_signal_text none = "HOLD" ∧
    render_signal_text (some none) = "None" ∧
    render_signal_badge (some none) = "badge-hold" ∧
    (∀ s : Option String, signal_upper s ≠ "BUY" → signal_upper s ≠ "SELL" →
      get_signal_badge_class s = "badge-hold") ∧
    get_signal_badge_class none = "badge-hold" ∧
    get_signal_badge_class (some "") = "badge-hold" := by
  refine ⟨rfl, rfl, rfl, ?_, rfl, rfl⟩
  intro s h1 h2
  unfold get_signal_badge_class
  rw [if_neg h1, if_neg h2]

/-- Witness for C10 (amended): a value that uppercases to neither `BUY` nor
`SELL` gets the hold badge. -/
theorem signal_badge_rendering_witness :
    get_signal_badge_class (some "Maybe") = "badge-hold" :=
  signal_badge_rendering.2.2.2.1 (some "Maybe") (by decide) (by decide)
